import Mathlib

/-!
Verification of the azul DOM tree-diff module (`src/azul/src/diff.rs`).

The value types `DomRange`, `DomNodeInfo`, `DomDiff` and the operations
`DomRange.contains`, `DomRange.equals_range`, `diff_dom_tree` and
`shift_focus` are embedded directly from `diff.rs`.  The collaborator
types `NodeId`, `DomHash`, `Node`, `NodeHierarchy`, `NodeDataContainer`,
`Arena` (module `id_tree` / `dom`) and the traversal helper
`get_non_leaf_nodes_sorted_by_depth` (module `ui_solver`) are not part of
the given sources and are modelled from the specification.
-/

/-- Modelled from the spec: `NodeId` (module `id_tree`, not in the given
sources) is an opaque, dense, zero-based index into a tree's node storage;
`index()` returns that index. -/
structure NodeId where
  index : Nat
deriving DecidableEq, Repr

/-- Modelled from the spec: `NodeId::new(i)` builds the id with index `i`. -/
def NodeId.new (i : Nat) : NodeId := ⟨i⟩

/-- Modelled from the spec: `DomHash` (module `dom`, not in the given
sources) is an opaque fixed-size content hash, used only through equality. -/
structure DomHash where
  hash : Nat
deriving DecidableEq, Repr

/-- Modelled from the spec: a node of the `id_tree` arena, carrying the
parent / first-child / last-child / next-sibling / previous-sibling links. -/
structure Node where
  parent : Option NodeId
  first_child : Option NodeId
  last_child : Option NodeId
  next_sibling : Option NodeId
  previous_sibling : Option NodeId
deriving DecidableEq, Repr

/-- Modelled from the spec: `NodeHierarchy` wraps the list of node links,
indexed by `NodeId`. -/
structure NodeHierarchy where
  internal : List Node
deriving DecidableEq, Repr

/-- Modelled from the spec: `NodeDataContainer` wraps the parallel list of
per-node content hashes, indexed by `NodeId`. -/
structure NodeDataContainer where
  internal : List DomHash
deriving DecidableEq, Repr

/-- Modelled from the spec: an `Arena` (tree snapshot) pairs a node
hierarchy with the parallel per-node content data. -/
structure Arena where
  node_layout : NodeHierarchy
  node_data : NodeDataContainer
deriving DecidableEq, Repr

/-- Modelled from the spec: depth of a node (root = depth 0), following
parent links upward; the fuel argument bounds the recursion, one step per
tree level (a well-formed tree with `n` nodes needs at most `n` fuel). -/
def nodeDepth (h : List Node) : Nat → NodeId → Nat
  | 0, _ => 0
  | fuel + 1, id =>
    match h.get? id.index with
    | some n =>
      match n.parent with
      | some p => nodeDepth h fuel p + 1
      | none => 0
    | none => 0

/-- Modelled from the spec: the non-leaf nodes (nodes with at least one
child) sitting at depth `d`, in traversal (index) order, each paired with
`d`. -/
def nonLeafAtDepth (h : NodeHierarchy) (d : Nat) : List (Nat × NodeId) :=
  ((List.range h.internal.length).filter (fun i =>
    match h.internal.get? i with
    | some n => n.first_child.isSome && (nodeDepth h.internal h.internal.length ⟨i⟩ == d)
    | none => false)).map (fun i => (d, ⟨i⟩))

/-- Modelled from the spec: `get_non_leaf_nodes_sorted_by_depth` (module
`ui_solver`, not in the given sources) returns the ordered sequence of
(depth, NodeId) for every node that has at least one child, ordered by
ascending depth (root = depth 0) and by traversal order within a depth
level. -/
def get_non_leaf_nodes_sorted_by_depth (h : NodeHierarchy) : List (Nat × NodeId) :=
  ((List.range h.internal.length).map (nonLeafAtDepth h)).flatten

/-- From `diff.rs`: a single node's identity and content at a point in
time. -/
structure DomNodeInfo where
  hash : DomHash
  id : NodeId
deriving DecidableEq, Repr

/-- From `diff.rs`: a contiguous subtree span given by its boundary node
infos. -/
structure DomRange where
  start : DomNodeInfo
  «end» : DomNodeInfo
deriving DecidableEq, Repr

/-- From `diff.rs`: is `other` a subtree of `self`?  Assumes the DOM was
constructed in a linear order, i.e. the child being within the parent's
start / end bounds. -/
def DomRange.contains (self other : DomRange) : Bool :=
  decide (other.start.id.index ≥ self.start.id.index) &&
  decide (other.«end».id.index ≤ self.«end».id.index)

/-- From `diff.rs`: compares two DOM ranges without looking at the DOM
hashes. -/
def DomRange.equals_range (self other : DomRange) : Bool :=
  decide (other.start = self.start) && decide (other.«end» = self.«end»)

/-- From `diff.rs`: the diff result, with added nodes, removed nodes, and
nodes shifted from an old position to a new position. -/
structure DomDiff where
  added_nodes : List DomRange
  removed_nodes : List DomRange
  shifted_nodes : List (DomRange × DomRange)
deriving DecidableEq, Repr

/-- From `diff.rs`: `DomDiff::default()`, all three lists empty. -/
def DomDiff.default : DomDiff := ⟨[], [], []⟩

/-- The lockstep loop of `diff_dom_tree`, walking the old non-leaf list
with its enumeration index.  The loop body of the source has no effect on
the result (all classification branches are empty); its only observable
behavior is the `node_data` indexing in the aligned-parent branch, which
panics when an index is out of bounds.  The embedding returns `false`
exactly when the source loop would panic, `true` otherwise. -/
def diffLoop (old new : Arena) (newL : List (Nat × NodeId)) :
    List (Nat × NodeId) → Nat → Bool
  | [], _ => true
  | (old_depth, old_parent_id) :: rest, parent_idx =>
    match newL.get? parent_idx with
    | some (new_depth, new_parent_id) =>
      if new_depth = old_depth then
        if new_parent_id = old_parent_id then
          match old.node_data.internal.get? old_parent_id.index,
                new.node_data.internal.get? new_parent_id.index with
          | some _, some _ => diffLoop old new newL rest (parent_idx + 1)
          | _, _ => false
        else diffLoop old new newL rest (parent_idx + 1)
      else diffLoop old new newL rest (parent_idx + 1)
    | none => diffLoop old new newL rest (parent_idx + 1)

/-- From `diff.rs`: `diff_dom_tree` walks the depth-ordered non-leaf lists
of both arenas in lockstep and returns `DomDiff::default()`; all its
classification branches are empty.  `none` models the panic on an
out-of-bounds `node_data` index in the aligned-parent branch. -/
def diff_dom_tree (old new : Arena) : Option DomDiff :=
  if diffLoop old new (get_non_leaf_nodes_sorted_by_depth new.node_layout)
      (get_non_leaf_nodes_sorted_by_depth old.node_layout) 0
  then some DomDiff.default
  else none

/-- From `diff.rs`: `shift_focus` determines if the focus should be
shifted; the body is a bare `TODO` returning `None`. -/
def shift_focus (diff : DomDiff) (old_focus : NodeId) : Option NodeId :=
  none

/-- A node id lies inside a range when its index is within the range's
inclusive index bounds (the spec's reading of a focus id falling inside an
added / removed / shifted range). -/
def NodeId.inRange (x : NodeId) (r : DomRange) : Bool :=
  decide (r.start.id.index ≤ x.index) && decide (x.index ≤ r.«end».id.index)

/-- Well-formedness used for the no-panic results: every non-leaf node id
is a valid index into the arena's `node_data` array (the spec assumes
well-formed snapshots with a content hash per node). -/
def Arena.wf (a : Arena) : Prop :=
  ∀ x ∈ get_non_leaf_nodes_sorted_by_depth a.node_layout,
    x.2.index < a.node_data.internal.length

instance (a : Arena) : Decidable a.wf :=
  inferInstanceAs (Decidable (∀ x ∈ get_non_leaf_nodes_sorted_by_depth a.node_layout,
    x.2.index < a.node_data.internal.length))

/-- The old tree of the worked example in `test_ui_hierarchy_diff`:
`0{1,2{3,4}}` with content hashes `[0,1,2,3,4]`. -/
def old_node_hierarchy : NodeHierarchy :=
  ⟨[⟨none, some ⟨1⟩, some ⟨2⟩, none, none⟩,
    ⟨some ⟨0⟩, none, none, some ⟨2⟩, none⟩,
    ⟨some ⟨0⟩, some ⟨3⟩, some ⟨4⟩, none, some ⟨1⟩⟩,
    ⟨some ⟨2⟩, none, none, some ⟨4⟩, none⟩,
    ⟨some ⟨2⟩, none, none, none, some ⟨3⟩⟩]⟩

/-- The old tree's content hashes, from `test_ui_hierarchy_diff`. -/
def old_node_content : NodeDataContainer :=
  ⟨[⟨0⟩, ⟨1⟩, ⟨2⟩, ⟨3⟩, ⟨4⟩]⟩

/-- The new tree of the worked example in `test_ui_hierarchy_diff`:
`0{1{2,3},4}` with content hashes `[0,2,3,4,1]`. -/
def new_node_hierarchy : NodeHierarchy :=
  ⟨[⟨none, some ⟨1⟩, some ⟨4⟩, none, none⟩,
    ⟨some ⟨0⟩, some ⟨2⟩, some ⟨3⟩, some ⟨4⟩, none⟩,
    ⟨some ⟨1⟩, none, none, some ⟨3⟩, none⟩,
    ⟨some ⟨1⟩, none, none, none, some ⟨2⟩⟩,
    ⟨some ⟨0⟩, none, none, none, some ⟨1⟩⟩]⟩

/-- The new tree's content hashes, from `test_ui_hierarchy_diff`. -/
def new_node_content : NodeDataContainer :=
  ⟨[⟨0⟩, ⟨2⟩, ⟨3⟩, ⟨4⟩, ⟨1⟩]⟩

/-- The old arena of the worked example. -/
def old_arena : Arena := ⟨old_node_hierarchy, old_node_content⟩

/-- The new arena of the worked example. -/
def new_arena : Arena := ⟨new_node_hierarchy, new_node_content⟩

/-- The diff `test_ui_hierarchy_diff` expects: one shifted pair, old range
(hash 1, id 1)–(hash 1, id 1) to new range (hash 1, id 4)–(hash 1, id 4),
no added or removed ranges. -/
def expected_diff : DomDiff :=
  ⟨[], [],
   [(⟨⟨⟨1⟩, ⟨1⟩⟩, ⟨⟨1⟩, ⟨1⟩⟩⟩, ⟨⟨⟨1⟩, ⟨4⟩⟩, ⟨⟨1⟩, ⟨4⟩⟩⟩)]⟩

/-- Every node id produced by the depth-ordered traversal is a valid index
into the hierarchy it was produced from. -/
theorem mem_gnl_index_lt (h : NodeHierarchy) :
    ∀ x ∈ get_non_leaf_nodes_sorted_by_depth h, x.2.index < h.internal.length := by
  intro x hx
  unfold get_non_leaf_nodes_sorted_by_depth at hx
  rw [List.mem_flatten] at hx
  obtain ⟨s, hs, hxs⟩ := hx
  rw [List.mem_map] at hs
  obtain ⟨d, _, rfl⟩ := hs
  unfold nonLeafAtDepth at hxs
  rw [List.mem_map] at hxs
  obtain ⟨i, hi, rfl⟩ := hxs
  have hr : i ∈ List.range h.internal.length := List.mem_of_mem_filter hi
  exact List.mem_range.mp hr

/-- The lockstep loop never hits an out-of-bounds index when every id in
the walked old list and in the new non-leaf list is a valid index into the
respective arena's node data. -/
theorem diffLoop_total (old new : Arena) (newL : List (Nat × NodeId))
    (hnew : ∀ x ∈ newL, x.2.index < new.node_data.internal.length) :
    ∀ l : List (Nat × NodeId),
      (∀ x ∈ l, x.2.index < old.node_data.internal.length) →
      ∀ i, diffLoop old new newL l i = true := by
  intro l
  induction l with
  | nil => intro _ i; rfl
  | cons hd tl ih =>
    intro hl i
    obtain ⟨old_depth, old_parent_id⟩ := hd
    have htl : ∀ x ∈ tl, x.2.index < old.node_data.internal.length :=
      fun x hx => hl x (List.mem_cons_of_mem _ hx)
    unfold diffLoop
    cases hget : newL.get? i with
    | none => exact ih htl (i + 1)
    | some p =>
      obtain ⟨new_depth, new_parent_id⟩ := p
      by_cases hdep : new_depth = old_depth
      · by_cases hid : new_parent_id = old_parent_id
        · have h1 : old_parent_id.index < old.node_data.internal.length :=
            hl (old_depth, old_parent_id) (List.mem_cons_self _ _)
          have h2 : old_parent_id.index < new.node_data.internal.length := by
            have hm := hnew _ (List.get?_mem hget)
            rwa [hid] at hm
          obtain ⟨a, ha⟩ : ∃ a, old.node_data.internal.get? old_parent_id.index = some a :=
            ⟨_, List.get?_eq_get h1⟩
          obtain ⟨b, hb⟩ : ∃ b, new.node_data.internal.get? old_parent_id.index = some b :=
            ⟨_, List.get?_eq_get h2⟩
          simp only [hdep, hid, ha, hb, if_true]
          exact ih htl (i + 1)
        · simp only [hdep, if_true, if_neg hid]
          exact ih htl (i + 1)
      · simp only [if_neg hdep]
        exact ih htl (i + 1)

/-- On well-formed arenas the diff never panics and returns the default
(empty) diff. -/
theorem diff_dom_tree_eq_default (old new : Arena) (h1 : old.wf) (h2 : new.wf) :
    diff_dom_tree old new = some DomDiff.default := by
  unfold diff_dom_tree
  rw [if_pos]
  exact diffLoop_total old new _ h2 _ h1 0

/-- Whenever the diff returns a value at all, that value is the default
(empty) diff. -/
theorem diff_dom_tree_some_eq_default (old new : Arena) (d : DomDiff)
    (h : diff_dom_tree old new = some d) : d = DomDiff.default := by
  unfold diff_dom_tree at h
  split at h
  · exact (Option.some_injective _ h).symm
  · exact absurd h (by simp)

/-- C1: at the worked-example trees (old `0{1,2{3,4}}` with hashes
`[0,1,2,3,4]`, new `0{1{2,3},4}` with hashes `[0,2,3,4,1]`) the code
returns the empty diff, not the one-shifted-pair diff the claim (and the
module's own test `test_ui_hierarchy_diff`) expects. -/
theorem diff_worked_example_returns_empty :
    diff_dom_tree old_arena new_arena = some DomDiff.default ∧
    DomDiff.default ≠ expected_diff :=
  ⟨by decide, by decide⟩

/-- C2: for every pair of well-formed snapshots, `diff_dom_tree` returns a
diff whose added, removed and shifted lists are all empty (all of the
source's classification branches are empty and it returns
`DomDiff::default()`). -/
theorem diff_dom_tree_always_empty (old new : Arena) (h1 : old.wf) (h2 : new.wf) :
    ∃ d, diff_dom_tree old new = some d ∧
      d.added_nodes = [] ∧ d.removed_nodes = [] ∧ d.shifted_nodes = [] :=
  ⟨DomDiff.default, diff_dom_tree_eq_default old new h1 h2, rfl, rfl, rfl⟩

/-- Witness for C2 at the worked-example arenas. -/
theorem diff_dom_tree_always_empty_witness :
    old_arena.wf ∧ new_arena.wf ∧
      (∃ d, diff_dom_tree old_arena new_arena = some d ∧
        d.added_nodes = [] ∧ d.removed_nodes = [] ∧ d.shifted_nodes = []) :=
  ⟨by decide, by decide,
   diff_dom_tree_always_empty old_arena new_arena (by decide) (by decide)⟩

/-- C3: on the expected worked-example diff, `shift_focus` returns `none`
for every old focus id, in particular for ids 1, 3 and 2 where the claim
(and the module's own test) expects `some 4`, `some 2` and `some 1`; only
the id-0 case agrees with the claim. -/
theorem shift_focus_worked_example_none :
    shift_focus expected_diff (NodeId.new 1) = none ∧
    shift_focus expected_diff (NodeId.new 3) = none ∧
    shift_focus expected_diff (NodeId.new 2) = none ∧
    shift_focus expected_diff (NodeId.new 0) = none :=
  ⟨rfl, rfl, rfl, rfl⟩

/-- C4: `shift_focus` returns `none` for every diff and every old focus
id; the body is an unimplemented `TODO`. -/
theorem shift_focus_always_none (d : DomDiff) (x : NodeId) :
    shift_focus d x = none := rfl

/-- C5: diffing a well-formed snapshot against itself yields empty added,
removed and shifted lists. -/
theorem diff_self_empty (s : Arena) (h : s.wf) :
    ∃ d, diff_dom_tree s s = some d ∧
      d.added_nodes = [] ∧ d.removed_nodes = [] ∧ d.shifted_nodes = [] :=
  ⟨DomDiff.default, diff_dom_tree_eq_default s s h h, rfl, rfl, rfl⟩

/-- Witness for C5 at the worked-example old arena. -/
theorem diff_self_empty_witness :
    old_arena.wf ∧
      (∃ d, diff_dom_tree old_arena old_arena = some d ∧
        d.added_nodes = [] ∧ d.removed_nodes = [] ∧ d.shifted_nodes = []) :=
  ⟨by decide, diff_self_empty old_arena (by decide)⟩

/-- C6: on well-formed snapshots (every non-leaf node id a valid index
into the node-data array) `diff_dom_tree` is total: it never panics and
returns an ordinary `DomDiff` value. -/
theorem diff_dom_tree_total (old new : Arena) (h1 : old.wf) (h2 : new.wf) :
    ∃ d, diff_dom_tree old new = some d :=
  ⟨DomDiff.default, diff_dom_tree_eq_default old new h1 h2⟩

/-- Witness for C6 at the worked-example arenas, diffed new against old. -/
theorem diff_dom_tree_total_witness :
    new_arena.wf ∧ old_arena.wf ∧ (∃ d, diff_dom_tree new_arena old_arena = some d) :=
  ⟨by decide, by decide, diff_dom_tree_total new_arena old_arena (by decide) (by decide)⟩

/-- C7: `DomRange::contains` returns true exactly when the other range's
node-index bounds lie within this range's bounds, inclusive. -/
theorem contains_iff (self other : DomRange) :
    DomRange.contains self other = true ↔
      (other.start.id.index ≥ self.start.id.index ∧
       other.«end».id.index ≤ self.«end».id.index) := by
  simp [DomRange.contains]

/-- C8: whenever the old focus id lies outside every range of the diff's
added, removed and shifted lists, `shift_focus` returns `none`. -/
theorem shift_focus_outside_ranges_none (d : DomDiff) (x : NodeId)
    (ha : ∀ r ∈ d.added_nodes, x.inRange r = false)
    (hr : ∀ r ∈ d.removed_nodes, x.inRange r = false)
    (hs : ∀ p ∈ d.shifted_nodes, x.inRange p.1 = false ∧ x.inRange p.2 = false) :
    shift_focus d x = none := rfl

/-- Witness for C8: node id 0 lies outside every range of the expected
worked-example diff, and `shift_focus` returns `none` there. -/
theorem shift_focus_outside_ranges_none_witness :
    (∀ r ∈ expected_diff.added_nodes, (NodeId.new 0).inRange r = false) ∧
    (∀ r ∈ expected_diff.removed_nodes, (NodeId.new 0).inRange r = false) ∧
    (∀ p ∈ expected_diff.shifted_nodes,
      (NodeId.new 0).inRange p.1 = false ∧ (NodeId.new 0).inRange p.2 = false) ∧
    shift_focus expected_diff (NodeId.new 0) = none :=
  ⟨by decide, by decide, by decide,
   shift_focus_outside_ranges_none expected_diff (NodeId.new 0)
     (by decide) (by decide) (by decide)⟩

/-- C9: every range in a diff produced by `diff_dom_tree` (added, removed,
or either side of a shifted pair) has its start index at most its end
index — vacuously, because the produced lists are always empty. -/
theorem diff_ranges_start_le_end (old new : Arena) (d : DomDiff)
    (h : diff_dom_tree old new = some d) :
    (∀ r ∈ d.added_nodes, r.start.id.index ≤ r.«end».id.index) ∧
    (∀ r ∈ d.removed_nodes, r.start.id.index ≤ r.«end».id.index) ∧
    (∀ p ∈ d.shifted_nodes, p.1.start.id.index ≤ p.1.«end».id.index ∧
      p.2.start.id.index ≤ p.2.«end».id.index) := by
  have hd := diff_dom_tree_some_eq_default old new d h
  subst hd
  exact ⟨fun r hr => by simp [DomDiff.default] at hr,
         fun r hr => by simp [DomDiff.default] at hr,
         fun p hp => by simp [DomDiff.default] at hp⟩

/-- Witness for C9 at the worked-example arenas. -/
theorem diff_ranges_start_le_end_witness :
    diff_dom_tree old_arena new_arena = some DomDiff.default ∧
    ((∀ r ∈ DomDiff.default.added_nodes, r.start.id.index ≤ r.«end».id.index) ∧
     (∀ r ∈ DomDiff.default.removed_nodes, r.start.id.index ≤ r.«end».id.index) ∧
     (∀ p ∈ DomDiff.default.shifted_nodes,
       p.1.start.id.index ≤ p.1.«end».id.index ∧
       p.2.start.id.index ≤ p.2.«end».id.index)) :=
  ⟨by decide, diff_ranges_start_le_end old_arena new_arena DomDiff.default (by decide)⟩

/-- C10: `DomRange::contains` is reflexive and transitive. -/
theorem contains_refl_and_trans :
    (∀ r : DomRange, DomRange.contains r r = true) ∧
    (∀ r1 r2 r3 : DomRange, DomRange.contains r1 r2 = true →
      DomRange.contains r2 r3 = true → DomRange.contains r1 r3 = true) := by
  constructor
  · intro r
    simp [DomRange.contains]
  · intro r1 r2 r3 h12 h23
    simp only [DomRange.contains, Bool.and_eq_true, decide_eq_true_eq, ge_iff_le]
      at h12 h23 ⊢
    exact ⟨le_trans h12.1 h23.1, le_trans h23.2 h12.2⟩

/-- Witness for C10: reflexivity at a concrete range and transitivity
through the concrete chain [0,9] ⊇ [1,5] ⊇ [2,3]. -/
theorem contains_refl_and_trans_witness :
    DomRange.contains ⟨⟨⟨0⟩, ⟨2⟩⟩, ⟨⟨0⟩, ⟨3⟩⟩⟩ ⟨⟨⟨0⟩, ⟨2⟩⟩, ⟨⟨0⟩, ⟨3⟩⟩⟩ = true ∧
    DomRange.contains ⟨⟨⟨0⟩, ⟨0⟩⟩, ⟨⟨0⟩, ⟨9⟩⟩⟩ ⟨⟨⟨0⟩, ⟨2⟩⟩, ⟨⟨0⟩, ⟨3⟩⟩⟩ = true :=
  ⟨contains_refl_and_trans.1 ⟨⟨⟨0⟩, ⟨2⟩⟩, ⟨⟨0⟩, ⟨3⟩⟩⟩,
   contains_refl_and_trans.2 ⟨⟨⟨0⟩, ⟨0⟩⟩, ⟨⟨0⟩, ⟨9⟩⟩⟩ ⟨⟨⟨0⟩, ⟨1⟩⟩, ⟨⟨0⟩, ⟨5⟩⟩⟩
     ⟨⟨⟨0⟩, ⟨2⟩⟩, ⟨⟨0⟩, ⟨3⟩⟩⟩ (by decide) (by decide)⟩
